import Mathlib

/-!
Shallow embedding of the gender-classification notebook
`src/assets/21_kernelsvm/plt/Gender.ipynb`.

The notebook is a linear pipeline: enumerate image file paths from id
ranges (`build_list_fn`), load each image and convert it to a grayscale
row vector (`rgb2gray`, `vectorize_img`), stack the rows and project with
a fixed random matrix (`build_data_matrix` and `ProjectionMatrix`),
standardize features with the training mean/variance
(`feature_extraction`), then train and score a classifier.

Numbers are modelled by exact rationals.  The single place where IEEE
non-finite values matter — the division `(X - x_mean)/x_var` when a
feature has zero variance — is modelled by the type `NpFloat`, a rational
extended with signed infinities and NaN, with numpy's division-by-zero
semantics (`positive/0 = +inf`, `negative/0 = -inf`, `0/0 = nan`).
External effects (the filesystem and the numpy random generator) are
parameters of the embedding.
-/

namespace Gender

/-- The hard-coded database path constant from the notebook. -/
def path : String := "../../data/AR/"

/-- Python's `str.zfill`: left-pad with the character `0` up to width `w`
(for non-negative inputs, which is the only case the notebook exercises). -/
def zfill (s : String) (w : Nat) : String :=
  String.mk (List.replicate (w - s.length) '0') ++ s

/-- The file name the notebook builds for one (subject id, view id) pair:
`path + pre + str(im_id).zfill(3) + '-' + str(v_id).zfill(2) + '.bmp'`. -/
def img_fn (pre : String) (im_id v_id : Nat) : String :=
  path ++ pre ++ zfill (toString im_id) 3 ++ "-" ++ zfill (toString v_id) 2 ++ ".bmp"

/-- `build_list_fn` from the notebook: for each subject id, for each view id,
append the formatted file name. -/
def build_list_fn (pre : String) (img_ids view_ids : List Nat) : List String :=
  img_ids.flatMap (fun im_id => view_ids.map (fun v_id => img_fn pre im_id v_id))

/-- A numpy double, as far as this notebook can observe it: a finite exact
rational, a signed infinity, or NaN. -/
inductive NpFloat where
  | fin (q : ℚ)
  | inf (pos : Bool)
  | nan
  deriving DecidableEq, Repr

/-- Finiteness predicate on `NpFloat`. -/
def NpFloat.isFinite : NpFloat → Bool
  | .fin _ => true
  | _ => false

/-- Subtraction of a finite rational from an `NpFloat`
(numpy semantics: infinities and NaN absorb). -/
def npSub (x : NpFloat) (q : ℚ) : NpFloat :=
  match x with
  | .fin a => .fin (a - q)
  | .inf s => .inf s
  | .nan => .nan

/-- Division of an `NpFloat` by a finite rational, with numpy semantics:
`a/0` is `+inf`, `-inf` or `nan` according to the sign of `a`, an infinity
divided by a finite value keeps (or flips) its sign, NaN absorbs. -/
def npDiv (x : NpFloat) (q : ℚ) : NpFloat :=
  match x with
  | .fin a =>
      if q = 0 then
        if a > 0 then .inf true else if a < 0 then .inf false else .nan
      else .fin (a / q)
  | .inf s => if q < 0 then .inf (!s) else .inf s
  | .nan => .nan

/-- A 3-channel (R, G, B) pixel, exact rational intensities. -/
abbrev Pixel : Type := ℚ × ℚ × ℚ

/-- An `h × w` image of 3-channel pixels, as returned by `misc.imread`. -/
abbrev Image (h w : Nat) : Type := Fin h → Fin w → Pixel

/-- `rgb2gray` from the notebook:
`rgb[:,:,0]*.299 + rgb[:,:,1]*.587 + rgb[:,:,2]*.114`. -/
def rgb2gray {h w : Nat} (rgb : Image h w) : Fin h → Fin w → ℚ :=
  fun r c =>
    (rgb r c).1 * (299/1000) + (rgb r c).2.1 * (587/1000) + (rgb r c).2.2 * (114/1000)

/-- Row index of flat pixel position `k` under numpy's row-major
`reshape(1, h*w)`. -/
def pixRow (h w : Nat) (k : Fin (h * w)) : Fin h :=
  ⟨k.val / w, by
    have hw : 0 < w := by
      rcases Nat.eq_zero_or_pos w with h0 | h0
      · exact absurd k.isLt (by simp [h0])
      · exact h0
    exact (Nat.div_lt_iff_lt_mul hw).mpr k.isLt⟩

/-- Column index of flat pixel position `k` under numpy's row-major
`reshape(1, h*w)`. -/
def pixCol (h w : Nat) (k : Fin (h * w)) : Fin w :=
  ⟨k.val % w, by
    have hw : 0 < w := by
      rcases Nat.eq_zero_or_pos w with h0 | h0
      · exact absurd k.isLt (by simp [h0])
      · exact h0
    exact Nat.mod_lt _ hw⟩

/-- `vectorize_img` from the notebook: read the image at `filename`
(the filesystem is the parameter `imread`), convert to grayscale, and
flatten the `h × w` grid row-major into a single row vector of length
`h * w` (`gray.reshape(1, D)`). -/
def vectorize_img {h w : Nat} (imread : String → Image h w) (filename : String) :
    Fin (h * w) → ℚ :=
  fun k => rgb2gray (imread filename) (pixRow h w k) (pixCol h w k)

/-- One row of the matrix product `X_full @ P`
(`np.dot(X_full, ProjectionMatrix)` applied to row `row`). -/
def projectRow {D d : Nat} (row : Fin D → ℚ) (P : Fin D → Fin d → ℚ) : Fin d → ℚ :=
  fun j => ∑ k, row k * P k j

/-- `build_data_matrix` from the notebook, with the projection matrix and
the filesystem as explicit parameters.  It enumerates the `M-` paths then
the `W-` paths, loads and vectorizes every path in order into the rows of
`X_full`, labels the first half `0` and the second half `1`
(`np.hstack((np.zeros((total_imgs/2,)), np.ones((total_imgs/2,))))`),
and returns `(X_full @ P, y)`. -/
def build_data_matrix {h w d : Nat} (P : Fin (h * w) → Fin d → ℚ)
    (imread : String → Image h w) (img_ids view_ids : List Nat) :
    List (Fin d → ℚ) × List ℚ :=
  let total_imgs := img_ids.length * view_ids.length * 2
  let y := List.replicate (total_imgs / 2) (0 : ℚ) ++ List.replicate (total_imgs / 2) (1 : ℚ)
  let list_fn := build_list_fn "M-" img_ids view_ids ++ build_list_fn "W-" img_ids view_ids
  let X_full := list_fn.map (vectorize_img imread)
  let X := X_full.map (fun row => projectRow row P)
  (X, y)

/-- Per-column mean of a sample matrix (list of rows):
`X.mean(axis = 0)`. -/
def colMean {m : Nat} (rows : List (Fin m → ℚ)) (j : Fin m) : ℚ :=
  (rows.map (fun r => r j)).sum / rows.length

/-- Per-column variance of a sample matrix (list of rows):
`X.var(axis = 0)`, numpy's default `ddof = 0` (mean squared deviation). -/
def colVar {m : Nat} (rows : List (Fin m → ℚ)) (j : Fin m) : ℚ :=
  (rows.map (fun r => (r j - colMean rows j) ^ 2)).sum / rows.length

/-- Lift a matrix of exact rationals to a matrix of `NpFloat`s. -/
def toNp {m : Nat} (rows : List (Fin m → ℚ)) : List (Fin m → NpFloat) :=
  rows.map (fun r j => .fin (r j))

/-- `feature_extraction` from the notebook: `(X - x_mean)/x_var`,
broadcast over the rows, with numpy division semantics and no epsilon
guard on `x_var`.  It is a total function: a zero variance does not raise,
it produces a non-finite entry. -/
def feature_extraction {m : Nat} (x_mean x_var : Fin m → ℚ)
    (X : List (Fin m → NpFloat)) : List (Fin m → NpFloat) :=
  X.map (fun row j => npDiv (npSub (row j) (x_mean j)) (x_var j))

/-- The values the top-level experiment cell binds, in order. -/
structure ExperimentResult (m : Nat) where
  X_train_full : List (Fin m → ℚ)
  y_train : List ℚ
  x_mean : Fin m → ℚ
  x_var : Fin m → ℚ
  X_train : List (Fin m → NpFloat)
  X_test_full : List (Fin m → ℚ)
  y_test : List ℚ
  X_test : List (Fin m → NpFloat)

/-- The top-level experiment cell: build the training matrix, compute the
per-feature mean and variance from it once, standardize the training
matrix, build the test matrix, and standardize it with the same stored
statistics. -/
def runExperiment {h w d : Nat} (P : Fin (h * w) → Fin d → ℚ)
    (imread : String → Image h w) (train_ids test_ids view_ids : List Nat) :
    ExperimentResult d :=
  let train := build_data_matrix P imread train_ids view_ids
  let X_train_full := train.1
  let y_train := train.2
  let x_mean := colMean X_train_full
  let x_var := colVar X_train_full
  let X_train := feature_extraction x_mean x_var (toNp X_train_full)
  let test := build_data_matrix P imread test_ids view_ids
  let X_test_full := test.1
  let y_test := test.2
  let X_test := feature_extraction x_mean x_var (toNp X_test_full)
  ⟨X_train_full, y_train, x_mean, x_var, X_train, X_test_full, y_test, X_test⟩

/-- `train_ids = np.arange(1, 26)`. -/
def train_ids : List Nat := List.range' 1 25

/-- `test_ids = np.arange(26, 50)`. -/
def test_ids : List Nat := List.range' 26 24

/-- `view_ids = np.hstack((np.arange(1, 8), np.arange(14, 21)))`. -/
def view_ids : List Nat := List.range' 1 7 ++ List.range' 14 7

/-- `D = 165*120`, the original (raw pixel) dimension. -/
def D : Nat := 165 * 120

/-- `d = 1000`, the reduced dimension. -/
def d : Nat := 1000

/-- Modelled from the spec: numpy's seeded pseudo-random generator
(`np.random.seed` followed by `np.random.randn`) is an external library,
not part of this repository's source.  The spec says the projection
matrix is "drawn once from a seeded random distribution so that repeated
runs with the same seed are reproducible bit-for-bit", i.e. the draw is a
deterministic pure function of the seed and the requested shape, which is
what this linear-congruential model captures. -/
def npRandn (seed rows cols : Nat) : Fin rows → Fin cols → ℚ :=
  fun i j =>
    (((1103515245 * (seed + i.val * cols + j.val) + 12345) % 2 ^ 31 : Nat) : ℚ)
      / 2 ^ 31 - 1 / 2

/-- `ProjectionMatrix = np.random.randn(D, d)` after `np.random.seed(1)`. -/
def ProjectionMatrix : Fin D → Fin d → ℚ := npRandn 1 D d

/-- The projection matrix produced by one run of the experiment: every run
executes `np.random.seed(1)` and then draws `np.random.randn(D, d)`, so
the run index never enters the generation. -/
def ProjectionMatrixOfRun (_run : Nat) : Fin D → Fin d → ℚ := ProjectionMatrix

/-- Modelled from the spec: `sklearn.metrics.accuracy_score` is an
external library, not part of this repository's source.  The spec says
the harness reports "the fraction of correct predictions against true
test labels". -/
def accuracy_score (y_true y_pred : List ℚ) : ℚ :=
  (((y_true.zip y_pred).countP (fun p => decide (p.1 = p.2)) : Nat) : ℚ) / y_true.length

/-- The exactly-two-digit decimal rendering of `n` (faithful for `n < 100`). -/
def twoDigitString (n : Nat) : String :=
  String.mk [Nat.digitChar (n / 10 % 10), Nat.digitChar (n % 10)]

/-- Modelled from the spec: the C-style `"%.2f"` conversion used in
`print("Accuracy: %.2f %%" % ...)` is performed by Python's runtime, not
by repository code.  The spec says accuracy is reported "as a percentage
with two decimal places": round to the nearest hundredth and render with
exactly two digits after the decimal point (for the non-negative values
this notebook prints). -/
def formatFixed2 (q : ℚ) : String :=
  let cents : ℤ := round (q * 100)
  toString (cents / 100) ++ "." ++ twoDigitString (cents % 100).toNat

/-- The line printed by the notebook:
`"Accuracy: %.2f %%" % (100*accuracy_score(y_test, y_pred))`. -/
def accuracyMessage (y_true y_pred : List ℚ) : String :=
  "Accuracy: " ++ formatFixed2 (100 * accuracy_score y_true y_pred) ++ " %"

/-! ### Helper lemmas -/

theorem build_list_fn_length (pre : String) (img_ids view_ids : List Nat) :
    (build_list_fn pre img_ids view_ids).length = img_ids.length * view_ids.length := by
  induction img_ids with
  | nil => simp [build_list_fn]
  | cons i is ih =>
      simp only [build_list_fn, List.flatMap_cons, List.length_append,
        List.length_map, List.length_cons] at ih ⊢
      rw [ih, Nat.succ_mul, Nat.add_comm]

theorem build_list_fn_getD (pre : String) (img_ids view_ids : List Nat)
    (a b : Nat) (ha : a < img_ids.length) (hb : b < view_ids.length) :
    (build_list_fn pre img_ids view_ids).getD (a * view_ids.length + b) ""
      = img_fn pre (img_ids.getD a 0) (view_ids.getD b 0) := by
  induction img_ids generalizing a with
  | nil => simp at ha
  | cons i is ih =>
      cases a with
      | zero =>
          have h1 : view_ids[b]? = some (view_ids.getD b 0) := by
            simp [List.getD_eq_getElem?_getD, List.getElem?_eq_getElem hb]
          simp only [build_list_fn, List.flatMap_cons, Nat.zero_mul, Nat.zero_add,
            List.getD_eq_getElem?_getD]
          rw [List.getElem?_append_left (by simpa using hb), List.getElem?_map, h1]
          simp [List.getD_cons_zero]
      | succ a' =>
          have hs : (a' + 1) * view_ids.length + b
              = view_ids.length + (a' * view_ids.length + b) := by
            rw [Nat.succ_mul]; omega
          simp only [build_list_fn, List.flatMap_cons, List.getD_eq_getElem?_getD, hs]
          rw [List.getElem?_append_right (by simp)]
          simp only [List.length_map, Nat.add_sub_cancel_left]
          rw [← List.getD_eq_getElem?_getD]
          have := ih a' (Nat.lt_of_succ_lt_succ ha)
          simpa [build_list_fn] using this

theorem getD_replicate_append {α : Type} (x y : α) (n i : Nat) (dflt : α)
    (h : i < n + n) :
    (List.replicate n x ++ List.replicate n y).getD i dflt
      = if i < n then x else y := by
  by_cases hi : i < n
  · rw [List.getD_eq_getElem?_getD, List.getElem?_append_left (by simpa using hi),
      List.getElem?_replicate, if_pos hi]
    simp [hi]
  · rw [List.getD_eq_getElem?_getD,
      List.getElem?_append_right (by simpa using Nat.le_of_not_lt hi),
      List.length_replicate, List.getElem?_replicate, if_pos (by omega)]
    simp [hi]

theorem npDiv_zero_not_finite (x : NpFloat) : (npDiv x 0).isFinite = false := by
  cases x with
  | fin a =>
      simp only [npDiv, if_pos rfl]
      by_cases h1 : a > 0
      · simp [h1, NpFloat.isFinite]
      · by_cases h2 : a < 0 <;> simp [h1, h2, NpFloat.isFinite]
  | inf s => simp [npDiv, NpFloat.isFinite]
  | nan => simp [npDiv, NpFloat.isFinite]

theorem npDiv_npSub_id (x : NpFloat) : npDiv (npSub x 0) 1 = x := by
  cases x with
  | fin a => simp [npSub, npDiv]
  | inf s => simp [npSub, npDiv]
  | nan => simp [npSub, npDiv]

theorem feature_extraction_getD {m : Nat} (me va : Fin m → ℚ)
    (X : List (Fin m → NpFloat)) (i : Nat) (hi : i < X.length)
    (dflt : Fin m → NpFloat) :
    (feature_extraction me va X).getD i dflt
      = fun j => npDiv (npSub ((X.getD i (fun _ => .nan)) j) (me j)) (va j) := by
  rw [feature_extraction, List.getD_eq_getElem?_getD, List.getElem?_map,
    List.getElem?_eq_getElem hi, Option.map_some', Option.getD_some]
  have : X.getD i (fun _ => .nan) = X.get ⟨i, hi⟩ := by
    rw [List.getD_eq_getElem?_getD, List.getElem?_eq_getElem hi, Option.getD_some]
    rfl
  rw [this]
  rfl

/-! ### Claims -/

/-- C1: the feature-statistics transform returns `(X - x_mean)/x_var`
elementwise; `x_mean` and `x_var` are the per-feature mean and variance
computed once from the training sample matrix, and the identical stored
statistics are applied to both the training matrix and the test matrix. -/
theorem c1_feature_statistics_shared {hh ww dd : Nat} (P : Fin (hh * ww) → Fin dd → ℚ)
    (imread : String → Image hh ww) (tr te vw : List Nat) :
    (runExperiment P imread tr te vw).x_mean
        = colMean (runExperiment P imread tr te vw).X_train_full ∧
    (runExperiment P imread tr te vw).x_var
        = colVar (runExperiment P imread tr te vw).X_train_full ∧
    (runExperiment P imread tr te vw).X_train
        = feature_extraction (runExperiment P imread tr te vw).x_mean
            (runExperiment P imread tr te vw).x_var
            (toNp (runExperiment P imread tr te vw).X_train_full) ∧
    (runExperiment P imread tr te vw).X_test
        = feature_extraction (runExperiment P imread tr te vw).x_mean
            (runExperiment P imread tr te vw).x_var
            (toNp (runExperiment P imread tr te vw).X_test_full) ∧
    ∀ (X : List (Fin dd → NpFloat)),
      feature_extraction (runExperiment P imread tr te vw).x_mean
          (runExperiment P imread tr te vw).x_var X
        = X.map (fun row j =>
            npDiv (npSub (row j) ((runExperiment P imread tr te vw).x_mean j))
              ((runExperiment P imread tr te vw).x_var j)) :=
  ⟨rfl, rfl, rfl, rfl, fun _ => rfl⟩

/-- C6: the dimensionality reducer is exactly the matrix product with the
single projection matrix `P`: both the training and the test sample
matrices of a run are obtained by right-multiplying the stacked raw pixel
rows by the same `P`, each entry being the dot product
`∑ k, row k * P k j`.  The reduction is a pure function of `P` and the
input, hence deterministic. -/
theorem c6_projection_is_matmul {hh ww dd : Nat} (P : Fin (hh * ww) → Fin dd → ℚ)
    (imread : String → Image hh ww) (tr te vw : List Nat)
    (row : Fin (hh * ww) → ℚ) (j : Fin dd) :
    (runExperiment P imread tr te vw).X_train_full
        = ((build_list_fn "M-" tr vw ++ build_list_fn "W-" tr vw).map
            (vectorize_img imread)).map (fun r => projectRow r P) ∧
    (runExperiment P imread tr te vw).X_test_full
        = ((build_list_fn "M-" te vw ++ build_list_fn "W-" te vw).map
            (vectorize_img imread)).map (fun r => projectRow r P) ∧
    projectRow row P j = ∑ k, row k * P k j :=
  ⟨rfl, rfl, rfl⟩

/-- C8: grayscale conversion is the fixed weighted sum
`0.299*R + 0.587*G + 0.114*B` per pixel, and the loader flattens the 2-D
pixel grid row-major into a single row vector; at the notebook's image
shape `165 × 120` the row vector has length `D = 165*120`. -/
theorem c8_grayscale_and_flatten {hh ww : Nat} (imread : String → Image hh ww)
    (rgb : Image hh ww) (r : Fin hh) (c : Fin ww) (fn : String) (k : Fin (hh * ww))
    (imreadAR : String → Image 165 120) (fnAR : String) (kAR : Fin D) :
    rgb2gray rgb r c
      = (rgb r c).1 * (299/1000) + (rgb r c).2.1 * (587/1000)
          + (rgb r c).2.2 * (114/1000) ∧
    vectorize_img imread fn k
      = rgb2gray (imread fn) (pixRow hh ww k) (pixCol hh ww k) ∧
    (pixRow hh ww k).val = k.val / ww ∧
    (pixCol hh ww k).val = k.val % ww ∧
    vectorize_img imreadAR fnAR kAR
      = rgb2gray (imreadAR fnAR) (pixRow 165 120 kAR) (pixCol 165 120 kAR) :=
  ⟨rfl, rfl, rfl, rfl, rfl⟩

/-- C5: for every prefix and every pair of id lists (ids are taken as
given, with no validation or rejection), `build_list_fn` returns an
ordered list of length `|img_ids| * |view_ids|` enumerated subject-major:
the entry at position `a * |view_ids| + b` is the path prefix, the
category prefix, the subject id zero-padded to 3 digits, a `-`, the view
id zero-padded to 2 digits, and the fixed extension `.bmp`. -/
theorem c5_enumerator_paths (pre : String) (img_ids view_ids : List Nat)
    (a b : Nat) (ha : a < img_ids.length) (hb : b < view_ids.length) :
    (build_list_fn pre img_ids view_ids).length = img_ids.length * view_ids.length ∧
    (build_list_fn pre img_ids view_ids).getD (a * view_ids.length + b) ""
      = path ++ pre ++ zfill (toString (img_ids.getD a 0)) 3 ++ "-"
          ++ zfill (toString (view_ids.getD b 0)) 2 ++ ".bmp" := by
  refine ⟨build_list_fn_length pre img_ids view_ids, ?_⟩
  rw [build_list_fn_getD pre img_ids view_ids a b ha hb]
  rfl

theorem c5_enumerator_paths_witness :
    1 < ([7, 1234] : List Nat).length ∧ 0 < ([5] : List Nat).length ∧
    ((build_list_fn "W-" [7, 1234] [5]).length
        = ([7, 1234] : List Nat).length * ([5] : List Nat).length ∧
      (build_list_fn "W-" [7, 1234] [5]).getD (1 * ([5] : List Nat).length + 0) ""
        = path ++ "W-" ++ zfill (toString (([7, 1234] : List Nat).getD 1 0)) 3 ++ "-"
            ++ zfill (toString (([5] : List Nat).getD 0 0)) 2 ++ ".bmp") :=
  ⟨by decide, by decide,
    c5_enumerator_paths "W-" [7, 1234] [5] 1 0 (by decide) (by decide)⟩

/-- C10: `build_data_matrix` returns an exactly class-balanced label
vector: with `n = |img_ids| * |view_ids|`, the labels are `n` zeros (the
`M-` images) followed by `n` ones (the `W-` images), of even length `2*n`
equal to the row count of the returned sample matrix. -/
theorem c10_balanced_labels {hh ww dd : Nat} (P : Fin (hh * ww) → Fin dd → ℚ)
    (imread : String → Image hh ww) (img_ids view_ids : List Nat) :
    (build_data_matrix P imread img_ids view_ids).2
      = List.replicate (img_ids.length * view_ids.length) (0 : ℚ)
          ++ List.replicate (img_ids.length * view_ids.length) (1 : ℚ) ∧
    (build_data_matrix P imread img_ids view_ids).2.length
      = 2 * (img_ids.length * view_ids.length) ∧
    (build_data_matrix P imread img_ids view_ids).1.length
      = (build_data_matrix P imread img_ids view_ids).2.length := by
  have h2 : img_ids.length * view_ids.length * 2 / 2
      = img_ids.length * view_ids.length := by omega
  have hy : (build_data_matrix P imread img_ids view_ids).2
      = List.replicate (img_ids.length * view_ids.length) (0 : ℚ)
          ++ List.replicate (img_ids.length * view_ids.length) (1 : ℚ) := by
    show List.replicate (img_ids.length * view_ids.length * 2 / 2) (0 : ℚ)
        ++ List.replicate (img_ids.length * view_ids.length * 2 / 2) (1 : ℚ) = _
    rw [h2]
  refine ⟨hy, ?_, ?_⟩
  · rw [hy]
    simp [List.length_append]
    generalize img_ids.length * view_ids.length = n
    omega
  · rw [hy]
    show (((build_list_fn "M-" img_ids view_ids ++ build_list_fn "W-" img_ids view_ids).map
          (vectorize_img imread)).map (fun row => projectRow row P)).length = _
    simp [List.length_append, build_list_fn_length]

/-- C4: for every pair of id lists and every row index `i` of the
returned pair `(X, y)`, row `i` of `X` is the projected vectorization of
the image whose path sits at position `i` of the concatenated path list,
and `y i` is the label of that same image: `0` when the path comes from
the `M-` half of the enumeration (`i < |img_ids| * |view_ids|`), `1` when
it comes from the `W-` half. -/
theorem c4_row_alignment {hh ww dd : Nat} (P : Fin (hh * ww) → Fin dd → ℚ)
    (imread : String → Image hh ww) (img_ids view_ids : List Nat) (i : Nat)
    (hi : i < img_ids.length * view_ids.length * 2) :
    (build_data_matrix P imread img_ids view_ids).1.getD i (fun _ => 0)
      = projectRow (vectorize_img imread
          ((build_list_fn "M-" img_ids view_ids
            ++ build_list_fn "W-" img_ids view_ids).getD i "")) P ∧
    (build_data_matrix P imread img_ids view_ids).2.getD i 0
      = (if i < img_ids.length * view_ids.length then 0 else 1) ∧
    (i < img_ids.length * view_ids.length →
      (build_list_fn "M-" img_ids view_ids
          ++ build_list_fn "W-" img_ids view_ids).getD i ""
        = (build_list_fn "M-" img_ids view_ids).getD i "") ∧
    (img_ids.length * view_ids.length ≤ i →
      (build_list_fn "M-" img_ids view_ids
          ++ build_list_fn "W-" img_ids view_ids).getD i ""
        = (build_list_fn "W-" img_ids view_ids).getD
            (i - img_ids.length * view_ids.length) "") := by
  have hM : (build_list_fn "M-" img_ids view_ids).length
      = img_ids.length * view_ids.length := build_list_fn_length _ _ _
  have hW : (build_list_fn "W-" img_ids view_ids).length
      = img_ids.length * view_ids.length := build_list_fn_length _ _ _
  have hcat : (build_list_fn "M-" img_ids view_ids
      ++ build_list_fn "W-" img_ids view_ids).length
      = img_ids.length * view_ids.length * 2 := by
    rw [List.length_append, hM, hW]
    generalize img_ids.length * view_ids.length = n
    omega
  have hicat : i < (build_list_fn "M-" img_ids view_ids
      ++ build_list_fn "W-" img_ids view_ids).length := by omega
  refine ⟨?_, ?_, ?_, ?_⟩
  · show (((build_list_fn "M-" img_ids view_ids
        ++ build_list_fn "W-" img_ids view_ids).map
          (vectorize_img imread)).map (fun row => projectRow row P)).getD i (fun _ => 0)
      = _
    rw [List.map_map, List.getD_eq_getElem?_getD, List.getElem?_map,
      List.getElem?_eq_getElem hicat, Option.map_some', Option.getD_some]
    have : (build_list_fn "M-" img_ids view_ids
        ++ build_list_fn "W-" img_ids view_ids).getD i ""
        = (build_list_fn "M-" img_ids view_ids
            ++ build_list_fn "W-" img_ids view_ids).get ⟨i, hicat⟩ := by
      rw [List.getD_eq_getElem?_getD, List.getElem?_eq_getElem hicat, Option.getD_some]
      rfl
    rw [this]
    rfl
  · have h2 : img_ids.length * view_ids.length * 2 / 2
        = img_ids.length * view_ids.length := by omega
    show (List.replicate (img_ids.length * view_ids.length * 2 / 2) (0 : ℚ)
        ++ List.replicate (img_ids.length * view_ids.length * 2 / 2) (1 : ℚ)).getD i 0
      = _
    rw [h2]
    exact getD_replicate_append 0 1 _ i 0 (by
      generalize img_ids.length * view_ids.length = n at hi ⊢
      omega)
  · intro hlt
    rw [List.getD_eq_getElem?_getD, List.getElem?_append_left (by omega),
      ← List.getD_eq_getElem?_getD]
  · intro hge
    rw [List.getD_eq_getElem?_getD, List.getElem?_append_right (by omega),
      hM, ← List.getD_eq_getElem?_getD]

/-- A one-pixel "filesystem" used to instantiate the generic theorems: every
path maps to the same single-pixel image with channels `(1, 2, 3)`. -/
def unitImread : String → Image 1 1 := fun _ _ _ => (1, 2, 3)

/-- A constant `1 × 1` projection matrix for the same instantiations. -/
def unitP : Fin (1 * 1) → Fin 1 → ℚ := fun _ _ => 1

theorem c4_row_alignment_witness :
    1 < ([4] : List Nat).length * ([9] : List Nat).length * 2 ∧
    ((build_data_matrix unitP unitImread [4] [9]).1.getD 1 (fun _ => 0)
        = projectRow (vectorize_img unitImread
            ((build_list_fn "M-" [4] [9] ++ build_list_fn "W-" [4] [9]).getD 1 "")) unitP ∧
      (build_data_matrix unitP unitImread [4] [9]).2.getD 1 0
        = (if 1 < ([4] : List Nat).length * ([9] : List Nat).length then 0 else 1) ∧
      (1 < ([4] : List Nat).length * ([9] : List Nat).length →
        (build_list_fn "M-" [4] [9] ++ build_list_fn "W-" [4] [9]).getD 1 ""
          = (build_list_fn "M-" [4] [9]).getD 1 "") ∧
      (([4] : List Nat).length * ([9] : List Nat).length ≤ 1 →
        (build_list_fn "M-" [4] [9] ++ build_list_fn "W-" [4] [9]).getD 1 ""
          = (build_list_fn "W-" [4] [9]).getD
              (1 - ([4] : List Nat).length * ([9] : List Nat).length) "")) :=
  ⟨by decide, c4_row_alignment unitP unitImread [4] [9] 1 (by decide)⟩

/-- C2: when a feature column of the training matrix has zero variance,
the transform still divides by it — there is no epsilon guard.
`feature_extraction` is a total function (the embedding of a harness that
does not crash): it returns a value, and every entry of that column of
`X_train` — which is exactly the matrix the notebook hands to the
classifier — is a non-finite value (`inf` or `nan`), passed downstream
unchanged. -/
theorem c2_zero_variance_flows_downstream {hh ww dd : Nat}
    (P : Fin (hh * ww) → Fin dd → ℚ) (imread : String → Image hh ww)
    (tr te vw : List Nat) (j : Fin dd) (i : Nat)
    (hvar : (runExperiment P imread tr te vw).x_var j = 0)
    (hi : i < (runExperiment P imread tr te vw).X_train.length) :
    ((runExperiment P imread tr te vw).X_train.getD i (fun _ => .nan) j).isFinite
      = false := by
  have hXtr : (runExperiment P imread tr te vw).X_train
      = feature_extraction (runExperiment P imread tr te vw).x_mean
          (runExperiment P imread tr te vw).x_var
          (toNp (runExperiment P imread tr te vw).X_train_full) := rfl
  have hlen : i < (toNp (runExperiment P imread tr te vw).X_train_full).length := by
    rw [hXtr] at hi
    simpa [feature_extraction] using hi
  rw [hXtr, feature_extraction_getD _ _ _ i hlen]
  simp only [hvar]
  exact npDiv_zero_not_finite _

theorem colVar_pair_eq {m : Nat} (r : Fin m → ℚ) (j : Fin m) :
    colVar [r, r] j = 0 := by
  simp [colVar, colMean]

theorem c2_zero_variance_flows_downstream_witness :
    (runExperiment unitP unitImread [1] [1] [1]).x_var 0 = 0 ∧
    0 < (runExperiment unitP unitImread [1] [1] [1]).X_train.length ∧
    ((runExperiment unitP unitImread [1] [1] [1]).X_train.getD 0
        (fun _ => .nan) 0).isFinite = false := by
  have hvar : (runExperiment unitP unitImread [1] [1] [1]).x_var 0 = 0 := by
    show colVar [projectRow (vectorize_img unitImread (img_fn "M-" 1 1)) unitP,
        projectRow (vectorize_img unitImread (img_fn "W-" 1 1)) unitP] 0 = 0
    exact colVar_pair_eq _ 0
  exact ⟨hvar, by decide,
    c2_zero_variance_flows_downstream unitP unitImread [1] [1] [1] 0 0
      hvar (by decide)⟩

/-- A concrete two-row training matrix (one feature, values 1 and 3), so the
stored statistics are mean 2 and variance 1. -/
def cexTrain : List (Fin 1 → ℚ) := [fun _ => 1, fun _ => 3]

/-- A concrete one-row sample matrix with single entry 0. -/
def cexX : List (Fin 1 → NpFloat) := [fun _ => .fin 0]

/-- C3 refuted as stated: re-applying `feature_extraction` with the same
stored mean/variance is NOT the same as applying it once.  With the
statistics computed from the training matrix `[[1], [3]]` (mean 2,
variance 1) and the sample matrix `[[0]]`, one application gives `[[-2]]`
while two applications give `[[-4]]`. -/
theorem c3_not_idempotent_counterexample :
    feature_extraction (colMean cexTrain) (colVar cexTrain)
        (feature_extraction (colMean cexTrain) (colVar cexTrain) cexX)
      ≠ feature_extraction (colMean cexTrain) (colVar cexTrain) cexX := by
  intro h
  have hmean : colMean cexTrain 0 = 2 := by
    simp [colMean, cexTrain]
    norm_num
  have hvar : colVar cexTrain 0 = 1 := by
    simp [colVar, colMean, cexTrain]
    norm_num
  have h0 := congrFun (congrArg (fun l => l.getD 0 (fun _ => NpFloat.nan)) h) 0
  simp only [feature_extraction, cexX, List.map_cons, List.map_nil,
    List.getD_cons_zero, hmean, hvar] at h0
  simp [npSub, npDiv] at h0

/-- C3 (amended): the feature-statistics transform is not idempotent for
arbitrary stored statistics (see the counterexample); it is idempotent
when the stored statistics are mean 0 and variance 1 for every feature,
in which case a single application is already the identity map.  This
states sufficiency of the identity statistics, not necessity — other
stored statistics can make the transform idempotent as well. -/
theorem c3_amended_identity_stats_idempotent {m : Nat} (me va : Fin m → ℚ)
    (X : List (Fin m → NpFloat)) (hme : ∀ j, me j = 0) (hva : ∀ j, va j = 1) :
    feature_extraction me va (feature_extraction me va X)
      = feature_extraction me va X := by
  have hid : ∀ Y : List (Fin m → NpFloat), feature_extraction me va Y = Y := by
    intro Y
    have hfun : (fun (row : Fin m → NpFloat) (j : Fin m) =>
        npDiv (npSub (row j) (me j)) (va j)) = fun row => row := by
      funext row j
      rw [hme, hva]
      exact npDiv_npSub_id _
    rw [feature_extraction, hfun]
    simp
  rw [hid, hid]

/-- The stored mean used in the amended-C3 witness: identically 0. -/
def zeroMean : Fin 1 → ℚ := fun _ => 0

/-- The stored variance used in the amended-C3 witness: identically 1. -/
def unitVar : Fin 1 → ℚ := fun _ => 1

theorem c3_amended_identity_stats_idempotent_witness :
    (∀ j : Fin 1, zeroMean j = 0) ∧ (∀ j : Fin 1, unitVar j = 1) ∧
    feature_extraction zeroMean unitVar (feature_extraction zeroMean unitVar cexX)
      = feature_extraction zeroMean unitVar cexX :=
  ⟨fun _ => rfl, fun _ => rfl,
    c3_amended_identity_stats_idempotent zeroMean unitVar cexX
      (fun _ => rfl) (fun _ => rfl)⟩

/-- C7: for equal-length prediction and truth vectors, the reported value
`100 * accuracy_score` lies in `[0, 100]`, and the printed line has the
shape `Accuracy: <integer part>.<exactly two digits> %`. -/
theorem c7_accuracy_in_range (y_true y_pred : List ℚ)
    (hlen : y_true.length = y_pred.length) :
    0 ≤ 100 * accuracy_score y_true y_pred ∧
    100 * accuracy_score y_true y_pred ≤ 100 ∧
    ∃ intPart fracPart : String, fracPart.length = 2 ∧
      accuracyMessage y_true y_pred
        = "Accuracy: " ++ intPart ++ "." ++ fracPart ++ " %" := by
  have hnn : 0 ≤ accuracy_score y_true y_pred := by
    unfold accuracy_score
    positivity
  have hub : accuracy_score y_true y_pred ≤ 1 := by
    unfold accuracy_score
    rcases Nat.eq_zero_or_pos y_true.length with h0 | h0
    · simp [h0]
    · rw [div_le_one (by exact_mod_cast h0)]
      have hz : (y_true.zip y_pred).length = y_true.length := by
        rw [List.length_zip, hlen]
        exact Nat.min_self _
      have hcount : (y_true.zip y_pred).countP (fun p => decide (p.1 = p.2))
          ≤ (y_true.zip y_pred).length := List.countP_le_length _
      rw [hz] at hcount
      exact_mod_cast hcount
  refine ⟨by linarith, by linarith,
    toString ((round (100 * accuracy_score y_true y_pred * 100) : ℤ) / 100),
    twoDigitString ((round (100 * accuracy_score y_true y_pred * 100) : ℤ) % 100).toNat,
    rfl, ?_⟩
  show "Accuracy: " ++ formatFixed2 (100 * accuracy_score y_true y_pred) ++ " %" = _
  simp only [formatFixed2]
  simp [String.append_assoc]

theorem c7_accuracy_in_range_witness :
    ([0, 1] : List ℚ).length = ([0, 0] : List ℚ).length ∧
    (0 ≤ 100 * accuracy_score [0, 1] [0, 0] ∧
      100 * accuracy_score [0, 1] [0, 0] ≤ 100 ∧
      ∃ intPart fracPart : String, fracPart.length = 2 ∧
        accuracyMessage [0, 1] [0, 0]
          = "Accuracy: " ++ intPart ++ "." ++ fracPart ++ " %") :=
  ⟨rfl, c7_accuracy_in_range [0, 1] [0, 0] rfl⟩

/-- C9: every run re-seeds the generator with seed 1 and draws the
projection matrix from it, so two runs produce the same matrix, of shape
`(165*120, 1000)` (encoded in the type), equal to the deterministic
function of the seed. -/
theorem c9_seeded_reproducibility (run1 run2 : Nat) :
    ProjectionMatrixOfRun run1 = ProjectionMatrixOfRun run2 ∧
    ProjectionMatrixOfRun run1 = npRandn 1 (165 * 120) 1000 :=
  ⟨rfl, rfl⟩

end Gender
